import Mathlib

/-!
Verification of the farm-supervision core of the `space-acres` repository
(`src/backend/farmer.rs`), as a shallow embedding in Lean 4.

The embedding models the bootstrap pipeline `create_farmer`, the plotted-piece
index update callback, the plotting-delay gate, the pause-plotting controller,
the aggregate farm-run future and the notification machinery. Pure control
flow is translated directly from the Rust source; the completion order of
concurrently constructed farms is made explicit as an input list of
`(farm_index, result)` pairs, and the event loops become step functions on
explicit state.
-/

namespace SpaceAcres

/-- Disk farm specification, from `DiskFarm` in `farmer.rs` (directory path
modelled as a string, allocated space in bytes as a natural number). -/
structure DiskFarm where
  directory : String
  allocated_plotting_space : Nat
deriving DecidableEq, Repr

/-! ### Farm bootstrap: the result-collection loop (farmer.rs lines 399-417)

`create_farmer` builds all farms as a `FuturesUnordered` stream; results
arrive in an arbitrary completion order, each tagged with its farm index.
The collection loop is

    while let Some((farm_index, farm)) = farms_stream.next().await {
        ...
        farms.push((farm_index, farm?));
    }
    farms.sort_unstable_by_key(|(farm_index, _farm)| *farm_index);

We embed the loop as `farmsLoop` over the completion-order list, and the
number of stream items the loop consumes before returning as
`farmsLoopConsumed`. -/

/-- The collection loop over the completion-order stream: pushes each
successful farm, and propagates the first error it encounters (the `farm?`
in `farms.push((farm_index, farm?))`), which aborts the loop. -/
def farmsLoop {ε α : Type} : List (Nat × Except ε α) → Except ε (List (Nat × α))
  | [] => Except.ok []
  | (i, r) :: rest =>
    match r with
    | Except.error e => Except.error e
    | Except.ok a => (farmsLoop rest).map (fun fs => (i, a) :: fs)

/-- How many completion-order stream items the collection loop consumes
before it returns (the `?` operator exits the `while let` early, dropping
the stream and hence cancelling constructions still in flight). -/
def farmsLoopConsumed {ε α : Type} : List (Nat × Except ε α) → Nat
  | [] => 0
  | (_, Except.error _) :: _ => 1
  | (_, Except.ok _) :: rest => 1 + farmsLoopConsumed rest

/-- The first construction error in completion order, if any. -/
def firstError {ε α : Type} : List (Nat × Except ε α) → Option ε
  | [] => none
  | (_, Except.error e) :: _ => some e
  | (_, Except.ok _) :: rest => firstError rest

/-- Whether a tagged construction result is an error (used to locate the
position of the first failure in the completion-order stream). -/
def resultIsError {ε α : Type} : Nat × Except ε α → Bool
  | (_, Except.error _) => true
  | (_, Except.ok _) => false

/-- `farms.sort_unstable_by_key(|(farm_index, _farm)| *farm_index)`:
re-sorting the collected farms by their original input index. -/
def sortFarms {α : Type} (l : List (Nat × α)) : List (Nat × α) :=
  l.insertionSort (fun a b => a.1 ≤ b.1)

/-- The whole bootstrap block of farmer.rs lines 399-417: collect the
completion-order results, re-sort by farm index, strip the indices. -/
def bootstrapFarms {ε α : Type} (completion : List (Nat × Except ε α)) :
    Except ε (List α) :=
  (farmsLoop completion).map (fun fs => (sortFarms fs).map Prod.snd)

/-- The successful results of a completion-order list, in completion order. -/
def okPart {ε α : Type} (l : List (Nat × Except ε α)) : List (Nat × α) :=
  l.filterMap (fun p =>
    match p.2 with
    | Except.ok a => some (p.1, a)
    | Except.error _ => none)

/-! ### The full `create_farmer` pipeline as a trace-producing function

The phases of `create_farmer` relevant to the claims, in source order:
empty-spec check (line 207), directory creation (lines 211-221), the node
`farmer_app_info` query (line 230), concurrent farm construction and the
collection loop (lines 298-418), `replace_backing_caches` (line 441), and
the plotted-piece collection scan whose `farm_index.try_into::<u8>()`
rejects more than 256 farms (lines 461-494). I/O actions are recorded in a
trace so claims about "before any I/O" and "without attempting
construction" can be stated. -/

/-- An I/O action performed by `create_farmer`, in the order it occurs. -/
inductive IOAction where
  | createDir (directory : String)
  | nodeQuery
  | constructFarm (farm_index : Nat)
  | replaceBackingCaches
  | scanFarmSectors (farm_index : Nat)
deriving DecidableEq, Repr

/-- Errors `create_farmer` can return, with farm-construction errors of an
abstract type ε. -/
inductive CreateError (ε : Type) where
  | noFarms
  | dirCreateFailed (directory : String)
  | nodeQueryFailed
  | farmFailed (e : ε)
  | tooManyFarms
deriving DecidableEq, Repr

/-- The directory-creation loop of farmer.rs lines 211-221: for each farm
whose directory does not exist, attempt `fs::create_dir`; the first failure
aborts `create_farmer`. Returns the trace of creation attempts and the
directory whose creation failed, if any. -/
def ensureDirs (dirExists dirCreateOk : String → Bool) :
    List DiskFarm → List IOAction × Option String
  | [] => ([], none)
  | f :: fs =>
    if dirExists f.directory then ensureDirs dirExists dirCreateOk fs
    else if dirCreateOk f.directory then
      let r := ensureDirs dirExists dirCreateOk fs
      (IOAction.createDir f.directory :: r.1, r.2)
    else ([IOAction.createDir f.directory], some f.directory)

/-- The plotted-piece collection loop of farmer.rs lines 461-494: iterate
the constructed farms by index; `farm_index.try_into::<u8>()` fails at
index 256, so a farm count above 256 yields the unsupported error after
the first 256 farms have been scanned. Returns the scan trace and whether
the unsupported-farm-count error occurred. -/
def scanFarms (n : Nat) : List IOAction × Bool :=
  ((List.range (min n 256)).map IOAction.scanFarmSectors, decide (n > 256))

/-- The `create_farmer` pipeline (farmer.rs lines 192-494), with the
environment (directory existence, directory creatability, node query
success) and the completion-order construction results as explicit inputs.
Returns the trace of I/O actions performed and either the ordered farm
handles or the first error. -/
def create_farmer {ε α : Type} (dirExists dirCreateOk : String → Bool)
    (nodeQueryOk : Bool) (disk_farms : List DiskFarm)
    (completion : List (Nat × Except ε α)) :
    List IOAction × Except (CreateError ε) (List α) :=
  if disk_farms.isEmpty then ([], Except.error CreateError.noFarms)
  else
    let dirs := ensureDirs dirExists dirCreateOk disk_farms
    match dirs.2 with
    | some d => (dirs.1, Except.error (CreateError.dirCreateFailed d))
    | none =>
      let acts1 := dirs.1 ++ [IOAction.nodeQuery]
      if !nodeQueryOk then (acts1, Except.error CreateError.nodeQueryFailed)
      else
        let acts2 := acts1 ++ (List.range disk_farms.length).map IOAction.constructFarm
        match farmsLoop completion with
        | Except.error e => (acts2, Except.error (CreateError.farmFailed e))
        | Except.ok indexed =>
          let farms := (sortFarms indexed).map Prod.snd
          let acts3 := acts2 ++ [IOAction.replaceBackingCaches]
          let scan := scanFarms farms.length
          if scan.2 then (acts3 ++ scan.1, Except.error CreateError.tooManyFarms)
          else (acts3 ++ scan.1, Except.ok farms)

/-! ### Plotted-piece index and the sector-finished callback (lines 564-592)

The index itself (`PlottedPieces` with `add_sector` / `delete_sector`) lives
in the external `subspace_farmer` crate; its operations are modelled from the
spec. The callback ordering (delete the replaced record, then add the new
one, under one lock) is translated from `on_plotted_sector_callback` in the
source. -/

/-- A plotted-sector record: which pieces live in a given sector (the shape
of `PlottedSector` the callback consumes). -/
structure PlottedSectorRecord where
  sector_index : Nat
  piece_indexes : List Nat
deriving DecidableEq, Repr

/-- The plotted-piece index: piece identity to owning farm and sector. -/
abbrev PlottedPiecesMap : Type := Nat → Option (Nat × Nat)

/-- Modelled from the spec: `PlottedPieces::add_sector` of the external
`subspace_farmer` crate, which is not part of this repository — "adds all
pieces from the new record", mapping each piece of the record to its owning
farm index and sector index. -/
def add_sector (farm_index : Nat) (s : PlottedSectorRecord)
    (m : PlottedPiecesMap) : PlottedPiecesMap :=
  fun p => if p ∈ s.piece_indexes then some (farm_index, s.sector_index) else m p

/-- Modelled from the spec: `PlottedPieces::delete_sector` of the external
`subspace_farmer` crate, which is not part of this repository — "removes all
pieces attributed to the replaced record". -/
def delete_sector (_farm_index : Nat) (s : PlottedSectorRecord)
    (m : PlottedPiecesMap) : PlottedPiecesMap :=
  fun p => if p ∈ s.piece_indexes then none else m p

/-- The `on_plotted_sector_callback` of farmer.rs lines 565-581: under a
single lock acquisition, delete the replaced sector record when present,
then add the new sector record. The whole callback is one atomic state
transition, matching the single critical section in the source. -/
def on_plotted_sector_callback (farm_index : Nat) (m : PlottedPiecesMap)
    (plotted_sector : PlottedSectorRecord)
    (maybe_old_plotted_sector : Option PlottedSectorRecord) : PlottedPiecesMap :=
  add_sector farm_index plotted_sector
    (match maybe_old_plotted_sector with
     | some old_plotted_sector => delete_sector farm_index old_plotted_sector m
     | none => m)

/-! ### Plotting-delay gate (farmer.rs lines 420-440)

One oneshot sender per farm is held in a vector behind a mutex; a handler
registered on the cache sync-progress event drains the vector (releasing
every farm's delay) and then takes its own `HandlerId`, detaching itself.
The state is the pending senders, whether the handler is still attached,
and the accumulated released farm indices. -/

/-- State of the plotting-delay gate. -/
structure DelayGateState where
  plotting_delay_senders : List Nat
  handler_attached : Bool
  released : List Nat
deriving DecidableEq, Repr

/-- Initial gate state for `n` farms: one pending delay sender per farm
(farmer.rs line 304 creates one oneshot channel per disk farm), handler
attached, nothing released yet. -/
def initDelayGate (n : Nat) : DelayGateState :=
  { plotting_delay_senders := List.range n
    handler_attached := true
    released := [] }

/-- One cache-sync-progress event hitting the gate (the closure of farmer.rs
lines 430-438): while attached, drain and fire every pending delay sender
regardless of the progress value, then detach the handler; once detached the
handler is gone and the event leaves the state unchanged. -/
def on_sync_progress {π : Type} (s : DelayGateState) (_progress : π) :
    DelayGateState :=
  if s.handler_attached then
    { plotting_delay_senders := []
      handler_attached := false
      released := s.released ++ s.plotting_delay_senders }
  else s

/-- Feed a sequence of cache-sync-progress events through the gate. -/
def runSyncEvents {π : Type} (s : DelayGateState) (events : List π) :
    DelayGateState :=
  events.foldl on_sync_progress s

/-! ### The aggregate farm-run future (farmer.rs lines 642-700)

`farms_fut` drains the stream of farm run-loop results; when the stream is
exhausted it awaits `pending::<()>()`, i.e. it idles forever instead of
resolving. `farmer_fut` selects over the pause controller, the action
processing loop and `farms_fut`, resolving when any of the three resolves. -/

/-- State of the aggregate farm-run future: still draining the result
stream, idling in `pending::<()>()`, or resolved. The `resolvedState`
constructor exists so that resolution is expressible; the step function
never produces it. -/
inductive FarmsFutState (ε : Type) where
  | running (remaining : List (Nat × Except ε Unit))
  | idling
  | resolvedState

/-- One polling step of `farms_fut` (lines 645-682): consume the next farm
run-loop result if one remains (both the success and the error arm of the
match continue the `while` loop), otherwise enter / stay in
`pending::<()>().await`, which never completes. -/
def farms_fut_step {ε : Type} : FarmsFutState ε → FarmsFutState ε
  | FarmsFutState.running [] => FarmsFutState.idling
  | FarmsFutState.running (_ :: rest) => FarmsFutState.running rest
  | FarmsFutState.idling => FarmsFutState.idling
  | FarmsFutState.resolvedState => FarmsFutState.resolvedState

/-- Whether the aggregate farm-run future has resolved. -/
def farms_fut_resolved {ε : Type} : FarmsFutState ε → Bool
  | FarmsFutState.resolvedState => true
  | _ => false

/-- The `select!` of `farmer_fut` (farmer.rs lines 685-700): the supervisor
future resolves exactly when the pause-plotting controller, the
action-processing loop, or the aggregate farm-run future resolves. -/
def farmer_fut_resolves {ε : Type} (pause_plotting_done process_actions_done : Bool)
    (s : FarmsFutState ε) : Bool :=
  pause_plotting_done || process_actions_done || farms_fut_resolved s

/-! ### Per-farm failure handling in `farms_fut` (lines 646-679)

For each farm result, an `Ok` exit is only logged; an `Err` exit spawns a
periodic re-logging timer (pushed into `farm_errors`) and emits exactly one
`FarmError` notification through the hub. The interval of the re-logging
timer is `FARM_ERROR_PRINT_INTERVAL`. -/

/-- `FARM_ERROR_PRINT_INTERVAL: Duration = Duration::from_secs(30)`
(farmer.rs line 45), in seconds. -/
def FARM_ERROR_PRINT_INTERVAL : Nat := 30

/-- The `FarmerNotification` enum of farmer.rs lines 53-72, with the
external payload types (sector update details, farming notification, sync
progress value, error) abstract. -/
inductive FarmerNotification (υ ν π ε : Type) where
  | SectorUpdate (farm_index : Nat) (sector_index : Nat) (update : υ)
  | FarmingNotification (farm_index : Nat) (notification : ν)
  | FarmerCacheSyncProgress (progress : π)
  | FarmError (farm_index : Nat) (error : ε)

/-- Whether a notification is a `FarmError` for farm `i`. -/
def isFarmErrorFor {υ ν π ε : Type} (i : Nat) :
    FarmerNotification υ ν π ε → Bool
  | FarmerNotification.FarmError j _ => j == i
  | _ => false

/-- The notifications emitted and re-logging timers spawned by the
`farms_fut` drain loop (lines 646-679), in completion order: an error exit
of farm `i` contributes one `FarmError i e` notification and one periodic
timer entry `(i, e)`; a successful exit contributes nothing. -/
def farms_fut_events {υ ν π ε : Type} :
    List (Nat × Except ε Unit) →
      List (FarmerNotification υ ν π ε) × List (Nat × ε)
  | [] => ([], [])
  | (_, Except.ok _) :: rest => farms_fut_events rest
  | (i, Except.error e) :: rest =>
    let r := farms_fut_events (υ := υ) (ν := ν) (π := π) rest
    (FarmerNotification.FarmError i e :: r.1, (i, e) :: r.2)

/-- The time (seconds after the farm failed) of the k-th periodic re-log of
a failed farm's error: the spawned task loops `sleep(30); log` forever
(farmer.rs lines 660-670). -/
def farm_error_print_time (k : Nat) : Nat :=
  (k + 1) * FARM_ERROR_PRINT_INTERVAL

/-! ### Pause-plotting controller (farmer.rs lines 605-625)

The loop holds a vector of acquired thread-pool guards. Per iteration:
if the pause signal reads true and fewer than `plotting_thread_pools_count`
guards are held, acquire one more and `continue` (re-check immediately);
if the signal reads false, clear the vector, releasing every held guard.
The state is the number of held guards. -/

/-- One polling cycle of `pause_plotting_actions_fut`, given the signal
value read by `borrow_and_update()`. -/
def pause_plotting_step (plotting_thread_pools_count : Nat)
    (thread_pools_held : Nat) (pause : Bool) : Nat :=
  if pause then
    if thread_pools_held < plotting_thread_pools_count then thread_pools_held + 1
    else thread_pools_held
  else 0

/-! ### `farm_during_initial_plotting` (farmer.rs lines 146-148, 165-171) -/

/-- A CPU core set (the `CpuCoreSet` capability, cores as indices). -/
structure CpuCoreSet where
  cores : List Nat
deriving DecidableEq, Repr

/-- `CpuCoreSet::cpu_cores`. -/
def CpuCoreSet.cpu_cores (s : CpuCoreSet) : List Nat := s.cores

/-- `should_farm_during_initial_plotting` (farmer.rs lines 165-171): count
the CPU cores across all core sets reported by `all_cpu_cores()` and
compare with 8. -/
def should_farm_during_initial_plotting (all_cpu_cores : List CpuCoreSet) : Bool :=
  decide (((all_cpu_cores.map CpuCoreSet.cpu_cores).flatten).length > 8)

/-- The `Farmer` struct, reduced to the field the accessor claim is about:
`farm_during_initial_plotting` is computed once in `create_farmer`
(line 247) and stored. -/
structure FarmerHandle where
  farm_during_initial_plotting : Bool
deriving DecidableEq, Repr

/-- The assembly of the `Farmer` value in `create_farmer` (line 247 computes
the flag, line 706 stores it). -/
def mk_farmer_handle (all_cpu_cores : List CpuCoreSet) : FarmerHandle :=
  { farm_during_initial_plotting := should_farm_during_initial_plotting all_cpu_cores }

/-! ## Theorems -/

/-! ### Helper lemmas about the collection loop -/

theorem farmsLoop_error_consumed {ε α : Type} :
    ∀ (l : List (Nat × Except ε α)) (e : ε), firstError l = some e →
      farmsLoop l = Except.error e ∧
      farmsLoopConsumed l = l.findIdx resultIsError + 1
  | [], e, h => by simp [firstError] at h
  | (i, Except.error e0) :: rest, e, h => by
    have he : e0 = e := by simpa [firstError] using h
    subst he
    refine ⟨rfl, ?_⟩
    simp [farmsLoopConsumed, List.findIdx_cons, resultIsError]
  | (i, Except.ok a) :: rest, e, h => by
    have h2 : firstError rest = some e := by simpa [firstError] using h
    obtain ⟨hl, hc⟩ := farmsLoop_error_consumed rest e h2
    constructor
    · show (farmsLoop rest).map _ = Except.error e
      rw [hl]; rfl
    · simp only [farmsLoopConsumed, List.findIdx_cons, resultIsError, cond_false, hc]
      omega

/-- C9: for an empty list of disk-farm specs, `create_farmer` fails with the
configuration error "There must be at least one disk farm provided" before
performing any I/O: the returned trace is empty (no directory creation, no
node query, no farm construction). -/
theorem create_farmer_empty_specs_fails_before_io {ε α : Type}
    (dirExists dirCreateOk : String → Bool) (nodeQueryOk : Bool)
    (completion : List (Nat × Except ε α)) :
    create_farmer dirExists dirCreateOk nodeQueryOk [] completion
      = ([], Except.error CreateError.noFarms) := rfl

/-- C1 counterexample: in the completion order where farm 0's construction
fails first and farm 1's construction completes second, the collection loop
of `create_farmer` consumes only one of the two stream items before
bootstrapping fails — it does not wait for all construction attempts to
complete, contradicting the claim as stated. -/
theorem farm_bootstrap_waits_for_all_counterexample :
    farmsLoop [((0 : Nat), Except.error "construction failed"),
               (1, Except.ok (7 : Nat))]
        = Except.error "construction failed" ∧
    farmsLoopConsumed [((0 : Nat), Except.error "construction failed"),
                       (1, Except.ok (7 : Nat))] = 1 ∧
    [((0 : Nat), Except.error "construction failed"),
     (1, Except.ok (7 : Nat))].length = 2 :=
  ⟨rfl, rfl, rfl⟩

/-- C1 (amended): all farm constructions are started concurrently and their
results are consumed in completion order; as soon as the first failed
construction result arrives, bootstrapping as a whole fails with exactly
that first encountered error, consuming only the stream items up to and
including the failure (in-flight sibling constructions are cancelled when
the stream is dropped, already-completed siblings are discarded). -/
theorem farm_bootstrap_fails_with_first_error {ε α : Type}
    (completion : List (Nat × Except ε α)) (e : ε)
    (hfirst : firstError completion = some e) :
    bootstrapFarms completion = Except.error e ∧
    farmsLoopConsumed completion = completion.findIdx resultIsError + 1 := by
  obtain ⟨h1, h2⟩ := farmsLoop_error_consumed completion e hfirst
  refine ⟨?_, h2⟩
  unfold bootstrapFarms
  rw [h1]; rfl

/-- Witness for C1 (amended) at a concrete completion order: farm 0 succeeds
first, farm 1 fails second, farm 2 was still pending; only two stream items
are consumed and the first error is surfaced. -/
theorem farm_bootstrap_fails_with_first_error_witness :
    bootstrapFarms [((0 : Nat), Except.ok (5 : Nat)), (1, Except.error "boom"),
                    (2, Except.ok 6)]
        = Except.error "boom" ∧
    farmsLoopConsumed [((0 : Nat), Except.ok (5 : Nat)), (1, Except.error "boom"),
                       (2, Except.ok 6)]
        = [((0 : Nat), Except.ok (5 : Nat)), (1, Except.error "boom"),
           (2, Except.ok 6)].findIdx resultIsError + 1 :=
  farm_bootstrap_fails_with_first_error _ "boom" rfl

/-- C4: a "sector finished plotting" event is applied to the plotted-piece
index as one atomic state transition (one critical section): the replaced
record's pieces are removed first (when present), then the new record's
pieces are added. Afterwards the index maps every piece of the new record
to the new sector, contains none of the replaced record's pieces that are
not also in the new record, and leaves unrelated pieces untouched. -/
theorem plotted_piece_index_update (farm_index : Nat) (m : PlottedPiecesMap)
    (new_sector old_sector : PlottedSectorRecord)
    (maybe_old : Option PlottedSectorRecord) :
    (∀ p ∈ new_sector.piece_indexes,
        on_plotted_sector_callback farm_index m new_sector maybe_old p
          = some (farm_index, new_sector.sector_index)) ∧
    (∀ p ∈ old_sector.piece_indexes, p ∉ new_sector.piece_indexes →
        on_plotted_sector_callback farm_index m new_sector (some old_sector) p
          = none) ∧
    (∀ p, p ∉ new_sector.piece_indexes → p ∉ old_sector.piece_indexes →
        on_plotted_sector_callback farm_index m new_sector (some old_sector) p
          = m p) := by
  refine ⟨?_, ?_, ?_⟩
  · intro p hp
    cases maybe_old <;>
      simp [on_plotted_sector_callback, add_sector, delete_sector, hp]
  · intro p hpo hpn
    simp [on_plotted_sector_callback, add_sector, delete_sector, hpo, hpn]
  · intro p hpn hpo
    simp [on_plotted_sector_callback, add_sector, delete_sector, hpo, hpn]

/-- Witness for C4 at a concrete event: farm 0, new record (sector 1, pieces
10 and 11) replacing old record (sector 0, pieces 11 and 12), starting from
the empty index. -/
theorem plotted_piece_index_update_witness :
    on_plotted_sector_callback 0 (fun _ => none) ⟨1, [10, 11]⟩
        (some ⟨0, [11, 12]⟩) 10 = some (0, 1) ∧
    on_plotted_sector_callback 0 (fun _ => none) ⟨1, [10, 11]⟩
        (some ⟨0, [11, 12]⟩) 12 = none ∧
    on_plotted_sector_callback 0 (fun _ => none) ⟨1, [10, 11]⟩
        (some ⟨0, [11, 12]⟩) 99 = none :=
  ⟨(plotted_piece_index_update 0 (fun _ => none) ⟨1, [10, 11]⟩ ⟨0, [11, 12]⟩
      (some ⟨0, [11, 12]⟩)).1 10 (by decide),
   (plotted_piece_index_update 0 (fun _ => none) ⟨1, [10, 11]⟩ ⟨0, [11, 12]⟩
      (some ⟨0, [11, 12]⟩)).2.1 12 (by decide) (by decide),
   (plotted_piece_index_update 0 (fun _ => none) ⟨1, [10, 11]⟩ ⟨0, [11, 12]⟩
      (some ⟨0, [11, 12]⟩)).2.2 99 (by decide) (by decide)⟩

/-- C5: the plotting-delay gate releases all `n` farms' plotting-delay
signals on the first cache-sync-progress event, whatever the progress value
is, and the listener detaches itself; the final state after any sequence of
further events is the same as after the first one (idempotent single-shot). -/
theorem plotting_delay_gate_single_shot {π : Type} (n : Nat) (p : π)
    (events : List π) :
    runSyncEvents (initDelayGate n) (p :: events)
      = { plotting_delay_senders := []
          handler_attached := false
          released := List.range n } := by
  have hfixed : ∀ (es : List π) (s : DelayGateState),
      s.handler_attached = false → runSyncEvents s es = s := by
    intro es
    induction es with
    | nil => intro s _; rfl
    | cons e es ih =>
      intro s hs
      show runSyncEvents (on_sync_progress s e) es = s
      rw [show on_sync_progress s e = s by simp [on_sync_progress, hs]]
      exact ih s hs
  show runSyncEvents (on_sync_progress (initDelayGate n) p) events = _
  rw [show on_sync_progress (initDelayGate n) p
        = { plotting_delay_senders := []
            handler_attached := false
            released := List.range n } by
      simp [on_sync_progress, initDelayGate]]
  exact hfixed events _ rfl

/-- C7: while the pause signal reads true, each polling cycle of the pause
controller acquires at most one more plotting thread-pool group
(`pause_plotting_step ... ≤ held + 1`), and starting from zero, `k` true
cycles hold exactly `min k total` groups — so the held count never exceeds
the partitioned total and reaches it after `total` cycles; the moment the
signal reads false, every held group is released at once, even if
acquisition had not completed. -/
theorem pause_plotting_incremental_acquire_batch_release (total held k : Nat) :
    pause_plotting_step total held true ≤ held + 1 ∧
    (fun h => pause_plotting_step total h true)^[k] 0 = min k total ∧
    pause_plotting_step total held false = 0 := by
  refine ⟨?_, ?_, ?_⟩
  · simp only [pause_plotting_step, if_true]
    split <;> omega
  · induction k with
    | zero => simp
    | succ k ih =>
      rw [Function.iterate_succ_apply', ih]
      simp only [pause_plotting_step, if_true]
      split <;> omega
  · simp [pause_plotting_step]

/-- C10: the `farm_during_initial_plotting` accessor of the `Farmer` handle
returns true exactly when the machine's total CPU core count, summed across
all core sets reported by `all_cpu_cores()`, is strictly greater than 8. -/
theorem farm_during_initial_plotting_iff (sets : List CpuCoreSet) :
    (mk_farmer_handle sets).farm_during_initial_plotting = true ↔
      8 < ((sets.map CpuCoreSet.cpu_cores).map List.length).sum := by
  simp [mk_farmer_handle, should_farm_during_initial_plotting,
    List.length_flatten]

/-! ### C6: the aggregate farm-run future never resolves from farm exits -/

theorem farms_fut_step_ne_resolved {ε : Type} (s : FarmsFutState ε)
    (h : s ≠ FarmsFutState.resolvedState) :
    farms_fut_step s ≠ FarmsFutState.resolvedState := by
  cases s with
  | running rem => cases rem <;> simp [farms_fut_step]
  | idling => simp [farms_fut_step]
  | resolvedState => exact absurd rfl h

theorem farms_fut_drains {ε : Type} :
    ∀ (results : List (Nat × Except ε Unit)),
      farms_fut_step^[results.length] (FarmsFutState.running results)
        = FarmsFutState.running []
  | [] => rfl
  | r :: rest => by
    rw [List.length_cons, Function.iterate_succ_apply]
    exact farms_fut_drains rest

/-- C6: for any list of farm run-loop results, the aggregate farm-run future
is never resolved after any number of polling steps — once every result has
been consumed it idles indefinitely (it is in the `idling` state from step
`results.length + 1` on) — and the supervisor future `farmer_fut` resolves
exactly when the pause-plotting controller or the action-processing loop
ends, never because of the farm-run future. -/
theorem supervisor_never_resolves_from_farm_exits {ε : Type}
    (results : List (Nat × Except ε Unit)) (k : Nat)
    (pause_plotting_done process_actions_done : Bool) :
    farms_fut_resolved (farms_fut_step^[k] (FarmsFutState.running results))
        = false ∧
    farms_fut_step^[results.length + 1 + k] (FarmsFutState.running results)
        = FarmsFutState.idling ∧
    farmer_fut_resolves pause_plotting_done process_actions_done
        (farms_fut_step^[k] (FarmsFutState.running results))
      = (pause_plotting_done || process_actions_done) := by
  have hne : ∀ (j : Nat),
      farms_fut_step^[j] (FarmsFutState.running results)
        ≠ FarmsFutState.resolvedState := by
    intro j
    induction j with
    | zero => simp
    | succ j ih =>
      rw [Function.iterate_succ_apply']
      exact farms_fut_step_ne_resolved _ ih
  have hres : farms_fut_resolved
      (farms_fut_step^[k] (FarmsFutState.running results)) = false := by
    cases hs : farms_fut_step^[k] (FarmsFutState.running results) with
    | running rem => rfl
    | idling => rfl
    | resolvedState => exact absurd hs (hne k)
  refine ⟨hres, ?_, ?_⟩
  · rw [show results.length + 1 + k = (k + 1) + results.length by omega,
      Function.iterate_add_apply, farms_fut_drains,
      Function.iterate_succ_apply]
    exact Function.iterate_fixed rfl k
  · rw [farmer_fut_resolves, hres, Bool.or_false]

/-! ### C8: per-farm failure handling in the supervisor loop -/

theorem farms_fut_events_countP_zero {υ ν π ε : Type} (i : Nat) :
    ∀ (results : List (Nat × Except ε Unit)), (∀ x ∈ results, x.1 ≠ i) →
      ((farms_fut_events (υ := υ) (ν := ν) (π := π) results).1.countP
          (isFarmErrorFor i)) = 0
  | [], _ => rfl
  | (j, Except.ok _) :: rest, h => by
    simpa [farms_fut_events] using
      farms_fut_events_countP_zero (υ := υ) (ν := ν) (π := π) i rest
        (fun x hx => h x (List.mem_cons_of_mem _ hx))
  | (j, Except.error e0) :: rest, h => by
    have hj : j ≠ i := h (j, Except.error e0) (List.mem_cons_self _ _)
    have hrest := farms_fut_events_countP_zero (υ := υ) (ν := ν) (π := π) i rest
      (fun x hx => h x (List.mem_cons_of_mem _ hx))
    simp [farms_fut_events, List.countP_cons, isFarmErrorFor, hrest, hj]

theorem farms_fut_events_timer_mem {υ ν π ε : Type} :
    ∀ (results : List (Nat × Except ε Unit)) (j : Nat) (f : ε),
      (j, Except.error f) ∈ results →
      (j, f) ∈ (farms_fut_events (υ := υ) (ν := ν) (π := π) results).2
  | [], _, _, h => absurd h (List.not_mem_nil _)
  | (j0, Except.ok _) :: rest, j, f, h => by
    have h2 : (j, Except.error f) ∈ rest := by
      rcases List.mem_cons.mp h with h1 | h1
      · exact absurd (congrArg Prod.snd h1).symm (by simp)
      · exact h1
    simpa [farms_fut_events] using
      farms_fut_events_timer_mem (υ := υ) (ν := ν) (π := π) rest j f h2
  | (j0, Except.error e0) :: rest, j, f, h => by
    rcases List.mem_cons.mp h with h1 | h1
    · have hj : j = j0 := congrArg Prod.fst h1
      have hf : f = e0 := by simpa using congrArg Prod.snd h1
      subst hj; subst hf
      simp [farms_fut_events]
    · simp only [farms_fut_events]
      exact List.mem_cons_of_mem _
        (farms_fut_events_timer_mem (υ := υ) (ν := ν) (π := π) rest j f h1)

theorem farms_fut_events_countP_one {υ ν π ε : Type} (i : Nat) (e : ε) :
    ∀ (results : List (Nat × Except ε Unit)),
      (results.map Prod.fst).Nodup → (i, Except.error e) ∈ results →
      ((farms_fut_events (υ := υ) (ν := ν) (π := π) results).1.countP
          (isFarmErrorFor i)) = 1
  | [], _, hmem => absurd hmem (List.not_mem_nil _)
  | (j, r) :: rest, hnodup, hmem => by
    rw [List.map_cons] at hnodup
    have hnd := List.nodup_cons.mp hnodup
    rcases List.mem_cons.mp hmem with h1 | h1
    · have hj : j = i := (congrArg Prod.fst h1).symm
      have hr : r = Except.error e := (congrArg Prod.snd h1).symm
      subst hr
      have hnotin : ∀ x ∈ rest, x.1 ≠ i := by
        intro x hx hxi
        apply hnd.1
        show j ∈ List.map Prod.fst rest
        rw [hj, ← hxi]
        exact List.mem_map_of_mem Prod.fst hx
      have hzero := farms_fut_events_countP_zero (υ := υ) (ν := ν) (π := π)
        i rest hnotin
      simp [farms_fut_events, List.countP_cons, isFarmErrorFor, hzero, hj]
    · have hji : j ≠ i := by
        intro hji
        apply hnd.1
        show j ∈ List.map Prod.fst rest
        rw [hji]
        exact List.mem_map_of_mem Prod.fst h1
      have hone := farms_fut_events_countP_one (υ := υ) (ν := ν) (π := π)
        i e rest hnd.2 h1
      cases r with
      | ok u => simpa [farms_fut_events] using hone
      | error e0 =>
        simp [farms_fut_events, List.countP_cons, isFarmErrorFor, hone, hji]

/-- C8: in the supervisor's drain loop, a farm whose run loop exits with an
error produces exactly one `FarmError` notification carrying that farm's
index (farm indices being distinct across results), a periodic re-logging
timer entry carrying that farm's index and error is spawned, every other
failing farm's timer entry is spawned as well (the loop never aborts, so
sibling farms are unaffected), the re-log interval is the fixed 30 seconds
of `FARM_ERROR_PRINT_INTERVAL`, and the timer re-logs forever at that fixed
spacing. -/
theorem farm_error_notified_once_and_relogged {υ ν π ε : Type}
    (results : List (Nat × Except ε Unit)) (i : Nat) (e : ε)
    (hnodup : (results.map Prod.fst).Nodup)
    (hmem : (i, Except.error e) ∈ results) :
    ((farms_fut_events (υ := υ) (ν := ν) (π := π) results).1.countP
        (isFarmErrorFor i)) = 1 ∧
    (i, e) ∈ (farms_fut_events (υ := υ) (ν := ν) (π := π) results).2 ∧
    (∀ j f, (j, Except.error f) ∈ results →
        (j, f) ∈ (farms_fut_events (υ := υ) (ν := ν) (π := π) results).2) ∧
    FARM_ERROR_PRINT_INTERVAL = 30 ∧
    (∀ k, farm_error_print_time (k + 1) = farm_error_print_time k + 30) := by
  refine ⟨farms_fut_events_countP_one i e results hnodup hmem,
    farms_fut_events_timer_mem results i e hmem,
    fun j f hjf => farms_fut_events_timer_mem results j f hjf,
    rfl, fun k => ?_⟩
  simp [farm_error_print_time, FARM_ERROR_PRINT_INTERVAL]
  ring

/-- Witness for C8 at a concrete run outcome: farm 0 exits successfully,
farm 1 exits with an error; exactly one `FarmError` notification for farm 1
is emitted and its periodic re-log timer is spawned. -/
theorem farm_error_notified_once_and_relogged_witness :
    ((farms_fut_events (υ := Unit) (ν := Unit) (π := Unit)
        [((0 : Nat), Except.ok ()), (1, Except.error "boom")]).1.countP
        (isFarmErrorFor 1)) = 1 ∧
    ((1 : Nat), "boom") ∈ (farms_fut_events (υ := Unit) (ν := Unit) (π := Unit)
        [((0 : Nat), Except.ok ()), (1, Except.error "boom")]).2 ∧
    FARM_ERROR_PRINT_INTERVAL = 30 :=
  have h := farm_error_notified_once_and_relogged
    (υ := Unit) (ν := Unit) (π := Unit)
    [((0 : Nat), Except.ok ()), (1, Except.error "boom")] 1 "boom"
    (by decide) (List.mem_cons_of_mem _ (List.mem_cons_self _ _))
  ⟨h.1, h.2.1, h.2.2.2.1⟩

/-! ### C2: unordered completion, re-sorted into input index order -/

theorem farmsLoop_all_ok {ε α : Type} :
    ∀ (l : List (Nat × Except ε α)), (∀ x ∈ l, ∃ a, x.2 = Except.ok a) →
      farmsLoop l = Except.ok (okPart l)
  | [], _ => rfl
  | (i, r) :: rest, h => by
    obtain ⟨a, ha⟩ := h (i, r) (List.mem_cons_self _ _)
    have ha2 : r = Except.ok a := ha
    subst ha2
    have ih := farmsLoop_all_ok rest (fun x hx => h x (List.mem_cons_of_mem _ hx))
    show (farmsLoop rest).map (fun fs => (i, a) :: fs) = _
    rw [ih]
    rfl

theorem okPart_map_ok {ε α : Type} (l : List (Nat × α)) :
    okPart (ε := ε) (l.map (fun p => (p.1, Except.ok p.2))) = l := by
  induction l with
  | nil => rfl
  | cons p rest ih =>
    simp only [List.map_cons, okPart, List.filterMap_cons] at ih ⊢
    rw [ih]

theorem sortFarms_eq_of_perm {α : Type} (n : Nat) (f : Nat → α)
    (l : List (Nat × α))
    (hperm : l.Perm ((List.range n).map (fun i => (i, f i)))) :
    sortFarms l = (List.range n).map (fun i => (i, f i)) := by
  have hkeys_t : ((List.range n).map (fun i => (i, f i))).Pairwise
      (fun a b : Nat × α => a.1 < b.1) :=
    (List.pairwise_lt_range n).map _ (fun a b h => by simpa using h)
  have hperm_sort : (sortFarms l).Perm ((List.range n).map (fun i => (i, f i))) :=
    (List.perm_insertionSort _ l).trans hperm
  have hne : (sortFarms l).Pairwise (fun a b : Nat × α => a.1 ≠ b.1) := by
    have h1 : ((List.range n).map (fun i => (i, f i))).Pairwise
        (fun a b : Nat × α => a.1 ≠ b.1) :=
      hkeys_t.imp (fun h => Nat.ne_of_lt h)
    exact (hperm_sort.pairwise_iff (fun h => Ne.symm h)).mpr h1
  have hsorted_le : (sortFarms l).Sorted (fun a b : Nat × α => a.1 ≤ b.1) := by
    haveI : IsTotal (Nat × α) (fun a b => a.1 ≤ b.1) :=
      ⟨fun a b => Nat.le_total a.1 b.1⟩
    haveI : IsTrans (Nat × α) (fun a b => a.1 ≤ b.1) :=
      ⟨fun a b c h1 h2 => Nat.le_trans h1 h2⟩
    exact List.sorted_insertionSort _ l
  have hsorted_lt : (sortFarms l).Sorted (fun a b : Nat × α => a.1 < b.1) := by
    refine List.Pairwise.imp ?_ (List.Pairwise.and hsorted_le hne)
    intro a b hab
    exact Nat.lt_of_le_of_ne hab.1 hab.2
  haveI : IsAntisymm (Nat × α) (fun a b => a.1 < b.1) :=
    ⟨fun a b h1 h2 => absurd h2 (Nat.lt_asymm h1)⟩
  exact List.eq_of_perm_of_sorted hperm_sort hsorted_lt hkeys_t

/-- C2: for every farm count `n ≥ 1`, if the completion-order stream is any
permutation of the `n` successfully constructed farms (farm `i` yielding
handle `f i`), the bootstrap block of `create_farmer` produces exactly the
`n` farm handles re-sorted back into the original input index order,
regardless of the completion order. -/
theorem farm_bootstrap_restores_input_order {ε α : Type} (n : Nat) (f : Nat → α)
    (completion : List (Nat × Except ε α)) (_hn : 1 ≤ n)
    (hperm : completion.Perm
      ((List.range n).map (fun i => (i, Except.ok (f i))))) :
    bootstrapFarms completion = Except.ok ((List.range n).map f) ∧
    ((List.range n).map f).length = n := by
  have htarget : (List.range n).map (fun i => (i, Except.ok (ε := ε) (f i)))
      = ((List.range n).map (fun i => (i, f i))).map
          (fun p => (p.1, Except.ok p.2)) := by
    rw [List.map_map]; rfl
  have hok : ∀ x ∈ completion, ∃ a, x.2 = Except.ok a := by
    intro x hx
    have hx2 := hperm.mem_iff.mp hx
    obtain ⟨i, _, rfl⟩ := List.mem_map.mp hx2
    exact ⟨f i, rfl⟩
  have h1 : farmsLoop completion = Except.ok (okPart completion) :=
    farmsLoop_all_ok _ hok
  have h2 : (okPart completion).Perm ((List.range n).map (fun i => (i, f i))) := by
    have h3 := hperm.filterMap (fun p : Nat × Except ε α =>
      match p.2 with
      | Except.ok a => some (p.1, a)
      | Except.error _ => none)
    rw [htarget] at h3
    have h4 : (okPart (ε := ε) (((List.range n).map (fun i => (i, f i))).map
        (fun p => (p.1, Except.ok p.2)))).Perm
        ((List.range n).map (fun i => (i, f i))) := by
      rw [okPart_map_ok]
    exact List.Perm.trans h3 h4
  have h5 : sortFarms (okPart completion)
      = (List.range n).map (fun i => (i, f i)) := sortFarms_eq_of_perm n f _ h2
  constructor
  · unfold bootstrapFarms
    rw [h1]
    show Except.ok ((sortFarms (okPart completion)).map Prod.snd) = _
    rw [h5, List.map_map]
    rfl
  · rw [List.length_map, List.length_range]

/-- Witness for C2 at `n = 2` with the completion order reversed relative to
the input index order: the bootstrap block still returns the handles in
input index order. -/
theorem farm_bootstrap_restores_input_order_witness :
    bootstrapFarms (ε := String)
        [((1 : Nat), Except.ok (10 : Nat)), (0, Except.ok 0)]
      = Except.ok ((List.range 2).map (fun i => i * 10)) ∧
    ((List.range 2).map (fun i => i * 10)).length = 2 :=
  farm_bootstrap_restores_input_order 2 (fun i => i * 10) _ (by omega) (by
    have h : (List.range 2).map
        (fun i => ((i : Nat), Except.ok (ε := String) (i * 10)))
        = [(0, Except.ok 0), (1, Except.ok 10)] := rfl
    rw [h]
    exact List.Perm.swap _ _ _)

/-! ### C3: the more-than-256-farms check happens after construction -/

theorem ensureDirs_all_exist (dirCreateOk : String → Bool) :
    ∀ (l : List DiskFarm), ensureDirs (fun _ => true) dirCreateOk l = ([], none)
  | [] => rfl
  | f :: fs => by
    show ensureDirs (fun _ => true) dirCreateOk fs = ([], none)
    exact ensureDirs_all_exist dirCreateOk fs

theorem farmsLoop_range_ok {α : Type} (n : Nat) (g : Nat → α) :
    farmsLoop (ε := Unit) ((List.range n).map (fun i => (i, Except.ok (g i))))
      = Except.ok ((List.range n).map (fun i => (i, g i))) := by
  have hok : ∀ x ∈ (List.range n).map
      (fun i => ((i : Nat), Except.ok (ε := Unit) (g i))), ∃ a, x.2 = Except.ok a := by
    intro x hx
    obtain ⟨i, _, rfl⟩ := List.mem_map.mp hx
    exact ⟨g i, rfl⟩
  rw [farmsLoop_all_ok _ hok]
  have htarget : (List.range n).map (fun i => (i, Except.ok (ε := Unit) (g i)))
      = ((List.range n).map (fun i => (i, g i))).map
          (fun p => (p.1, Except.ok p.2)) := by
    rw [List.map_map]; rfl
  rw [htarget, okPart_map_ok]

set_option maxRecDepth 100000 in
/-- C3 counterexample: a concrete input with 257 farms, all of whose
constructions succeed. `create_farmer` does return the unsupported-farm-count
error, but its trace contains the construction of farm 0 — construction was
attempted, contradicting "without attempting construction of any farm". -/
theorem too_many_farms_counterexample :
    (create_farmer (ε := Unit) (fun _ => true) (fun _ => true) true
        (List.replicate 257 ⟨"farm", 1⟩)
        ((List.range 257).map (fun i => (i, Except.ok i)))).2
      = Except.error CreateError.tooManyFarms ∧
    IOAction.constructFarm 0 ∈
      (create_farmer (ε := Unit) (fun _ => true) (fun _ => true) true
        (List.replicate 257 ⟨"farm", 1⟩)
        ((List.range 257).map (fun i => (i, Except.ok i)))).1 :=
  ⟨rfl, by decide⟩

/-- C3 (amended): for any input with more than 256 farms whose constructions
all succeed, `create_farmer` fails with the unsupported-farm-count error,
but only after attempting the construction of every farm: the trace contains
a construction action for each of the `n` farm indices (the `u8` bound is
checked during plotted-piece collection, after bootstrap construction, not
before it). -/
theorem too_many_farms_rejected_after_construction {α : Type} (n : Nat)
    (g : Nat → α) (hn : 256 < n) :
    (create_farmer (ε := Unit) (fun _ => true) (fun _ => true) true
        (List.replicate n ⟨"farm", 1⟩)
        ((List.range n).map (fun i => (i, Except.ok (g i))))).2
      = Except.error CreateError.tooManyFarms ∧
    ∀ i < n, IOAction.constructFarm i ∈
      (create_farmer (ε := Unit) (fun _ => true) (fun _ => true) true
        (List.replicate n ⟨"farm", 1⟩)
        ((List.range n).map (fun i => (i, Except.ok (g i))))).1 := by
  have hne : (List.replicate n (⟨"farm", 1⟩ : DiskFarm)).isEmpty = false := by
    cases hcase : List.replicate n (⟨"farm", 1⟩ : DiskFarm) with
    | nil =>
      exfalso
      have hlen := congrArg List.length hcase
      simp only [List.length_replicate, List.length_nil] at hlen
      omega
    | cons a l => rfl
  have hsort : sortFarms ((List.range n).map (fun i => (i, g i)))
      = (List.range n).map (fun i => (i, g i)) :=
    sortFarms_eq_of_perm n g _ (List.Perm.refl _)
  have hscan : n > 256 := hn
  have hmain : create_farmer (ε := Unit) (fun _ => true) (fun _ => true) true
      (List.replicate n ⟨"farm", 1⟩)
      ((List.range n).map (fun i => (i, Except.ok (g i))))
      = (([] ++ [IOAction.nodeQuery]
            ++ (List.range n).map IOAction.constructFarm
            ++ [IOAction.replaceBackingCaches]
            ++ (List.range (min n 256)).map IOAction.scanFarmSectors),
         Except.error CreateError.tooManyFarms) := by
    unfold create_farmer
    rw [hne]
    simp only [Bool.false_eq_true, if_false, ensureDirs_all_exist,
      Bool.not_true, List.length_replicate, farmsLoop_range_ok, hsort,
      scanFarms, List.length_map, List.length_range]
    simp [hscan]
  refine ⟨by rw [hmain], ?_⟩
  intro i hi
  rw [hmain]
  simp only [List.nil_append, List.mem_append, List.mem_map, List.mem_range,
    List.mem_singleton]
  left; left; right
  exact ⟨i, hi, rfl⟩

/-- Witness for C3 (amended) at 257 farms, each yielding its index as
handle: the unsupported error is returned and farm 5's construction was
attempted. -/
theorem too_many_farms_rejected_after_construction_witness :
    (create_farmer (ε := Unit) (fun _ => true) (fun _ => true) true
        (List.replicate 257 ⟨"farm", 1⟩)
        ((List.range 257).map (fun i => (i, Except.ok (i + 1))))).2
      = Except.error CreateError.tooManyFarms ∧
    IOAction.constructFarm 5 ∈
      (create_farmer (ε := Unit) (fun _ => true) (fun _ => true) true
        (List.replicate 257 ⟨"farm", 1⟩)
        ((List.range 257).map (fun i => (i, Except.ok (i + 1))))).1 :=
  have h := too_many_farms_rejected_after_construction 257 (fun i => i + 1)
    (by omega)
  ⟨h.1, h.2 5 (by omega)⟩

end SpaceAcres
